import Mathlib

/-!
Verification of the Cold-Email-Formatter dispatch and delivery-tracking core.

The definitions below are a shallow embedding of the repository's code:

* `getEmailConfig` embeds `src/src/utils/emailSender.ts` (the credential
  resolver used by the browser client);
* `createTransporterConfig`, `sendBulk`, `runBulkLoop` and friends embed the
  transporter switch and the bulk-send loop of `src/server/routes/emails.js`;
* `logEmailAttempt`, `updateLogStatus` and `sendErrorResponse` embed the
  file-backed delivery ledger of `src/server/emailServer.js`;
* `getEmails` embeds the paginated history query of
  `src/server/routes/emails.js`.

JavaScript-specific behaviour that the claims depend on is modelled
explicitly: string truthiness (`jsTruthy`), `parseInt` (`jsParseInt`),
and `String.prototype.replace` including its `$`-replacement patterns
(`jsReplaceFirst`, `jsReplaceAll`).  Strings manipulated character by
character are represented as `List Char`.
-/

namespace ColdEmail

/-! ## JavaScript string primitives -/

/-- Truthiness of a nullable JavaScript string: `null`/`undefined` (here
`none`) and the empty string are falsy, every other string is truthy. -/
def jsTruthy : Option String → Bool
  | none => false
  | some s => s != ""

/-- Characters skipped by `parseInt` before the number (ASCII whitespace). -/
def isJsSpace (c : Char) : Bool :=
  c = ' ' || c = '\t' || c = '\n' || c = '\r' || c = '\x0b' || c = '\x0c'

/-- Value of a decimal digit character, if any. -/
def digitVal (c : Char) : Option Nat :=
  if '0' ≤ c ∧ c ≤ '9' then some (c.toNat - 48) else none

/-- Value of a hexadecimal digit character, if any. -/
def hexDigitVal (c : Char) : Option Nat :=
  if '0' ≤ c ∧ c ≤ '9' then some (c.toNat - 48)
  else if 'a' ≤ c ∧ c ≤ 'f' then some (c.toNat - 87)
  else if 'A' ≤ c ∧ c ≤ 'F' then some (c.toNat - 55)
  else none

/-- Accumulate the longest prefix of digits (w.r.t. `dv`) into a number. -/
def takeDigitsAcc (dv : Char → Option Nat) (base : Nat) : List Char → Nat → Nat
  | [], acc => acc
  | c :: cs, acc =>
    match dv c with
    | some d => takeDigitsAcc dv base cs (acc * base + d)
    | none => acc

/-- Whether the list starts with a digit w.r.t. `dv`. -/
def hasLeadingDigit (dv : Char → Option Nat) : List Char → Bool
  | [] => false
  | c :: _ => (dv c).isSome

/-- Model of JavaScript `parseInt(s)` (radix unspecified): skip leading
whitespace, read an optional sign, detect a `0x`/`0X` prefix (hexadecimal),
then take the longest prefix of digits; `none` models `NaN`. -/
def jsParseInt (s : String) : Option Int :=
  let cs := s.data.dropWhile isJsSpace
  let signAndRest : Int × List Char :=
    match cs with
    | '-' :: rest => (-1, rest)
    | '+' :: rest => (1, rest)
    | _ => (1, cs)
  let sign := signAndRest.1
  let body := signAndRest.2
  match body with
  | '0' :: 'x' :: rest =>
    if hasLeadingDigit hexDigitVal rest then
      some (sign * (takeDigitsAcc hexDigitVal 16 rest 0 : Nat))
    else none
  | '0' :: 'X' :: rest =>
    if hasLeadingDigit hexDigitVal rest then
      some (sign * (takeDigitsAcc hexDigitVal 16 rest 0 : Nat))
    else none
  | _ =>
    if hasLeadingDigit digitVal body then
      some (sign * (takeDigitsAcc digitVal 10 body 0 : Nat))
    else none

/-! ## Credential resolver (`src/src/utils/emailSender.ts`) -/

/-- SMTP auth sub-object of the resolved connection profile. -/
structure EmailAuth where
  user : String
  pass : String
deriving Repr, DecidableEq

/-- Resolved SMTP connection profile (interface `EmailConfig` in
`emailSender.ts`). -/
structure EmailConfig where
  host : String
  port : Int
  secure : Bool
  auth : EmailAuth
deriving Repr, DecidableEq

/-- Input of the resolver (interface `EmailData` in `src/types/email.ts`):
`emailType` is one of `gmail`, `website`, or empty; `domain` and `smtpPort`
are plain strings, empty when not filled in.  The source fields `from` and
`to` are renamed `fromAddr`/`toAddr` because both are Lean keywords. -/
structure EmailData where
  emailType : String
  fromAddr : String
  password : String
  domain : String
  smtpPort : String
  toAddr : String
  cc : String
  subject : String
  content : String
deriving Repr, DecidableEq

/-- Embedding of `getEmailConfig` from `src/src/utils/emailSender.ts`.
Thrown `Error`s are modelled as `Except.error` carrying the message; the
function is pure, so a configuration failure happens before any network
I/O by construction. -/
def getEmailConfig (emailData : EmailData) : Except String EmailConfig :=
  if emailData.emailType = "gmail" then
    .ok { host := "smtp.gmail.com", port := 587, secure := false,
          auth := { user := emailData.fromAddr, pass := emailData.password } }
  else
    if emailData.domain = "" then
      .error "SMTP domain is required for website emails"
    else if emailData.smtpPort = "" then
      .error "SMTP port is required for website emails"
    else
      match jsParseInt emailData.smtpPort with
      | none => .error "Invalid SMTP port number"
      | some port =>
        if port < 1 ∨ port > 65535 then
          .error "Invalid SMTP port number"
        else
          .ok { host := emailData.domain, port := port,
                secure := decide (port = 465),
                auth := { user := emailData.fromAddr,
                          pass := emailData.password } }

/-! ## Claim C1 -/

/-- **C1.** For every company with the custom provider (any non-gmail
`emailType` reaches the custom/website branch of `getEmailConfig`),
resolution fails exactly when the SMTP host is absent, the SMTP port is
absent, does not parse to an integer, or lies outside `[1, 65535]`; when
host and port are valid the profile uses exactly that host and the parsed
port. -/
theorem c1_custom_resolution (d : EmailData) (hc : d.emailType ≠ "gmail") :
    ((∃ e, getEmailConfig d = .error e) ↔
      d.domain = "" ∨ d.smtpPort = "" ∨ jsParseInt d.smtpPort = none ∨
        (∃ p, jsParseInt d.smtpPort = some p ∧ (p < 1 ∨ p > 65535))) ∧
    (∀ cfg, getEmailConfig d = .ok cfg →
      cfg.host = d.domain ∧ jsParseInt d.smtpPort = some cfg.port ∧
        1 ≤ cfg.port ∧ cfg.port ≤ 65535) := by
  by_cases hd : d.domain = ""
  · refine ⟨⟨fun _ => Or.inl hd,
      fun _ => ⟨"SMTP domain is required for website emails", ?_⟩⟩,
      fun cfg hcfg => ?_⟩
    · simp [getEmailConfig, hc, hd]
    · simp [getEmailConfig, hc, hd] at hcfg
  · by_cases hp : d.smtpPort = ""
    · refine ⟨⟨fun _ => Or.inr (Or.inl hp),
        fun _ => ⟨"SMTP port is required for website emails", ?_⟩⟩,
        fun cfg hcfg => ?_⟩
      · simp [getEmailConfig, hc, hd, hp]
      · simp [getEmailConfig, hc, hd, hp] at hcfg
    · cases hpp : jsParseInt d.smtpPort with
      | none =>
        refine ⟨⟨fun _ => Or.inr (Or.inr (Or.inl rfl)),
          fun _ => ⟨"Invalid SMTP port number", ?_⟩⟩, fun cfg hcfg => ?_⟩
        · simp [getEmailConfig, hc, hd, hp, hpp]
        · simp [getEmailConfig, hc, hd, hp, hpp] at hcfg
      | some p =>
        by_cases hrange : p < 1 ∨ p > 65535
        · refine ⟨⟨fun _ => Or.inr (Or.inr (Or.inr ⟨p, rfl, hrange⟩)),
            fun _ => ⟨"Invalid SMTP port number", ?_⟩⟩, fun cfg hcfg => ?_⟩
          · simp [getEmailConfig, hc, hd, hp, hpp, hrange]
          · simp [getEmailConfig, hc, hd, hp, hpp, hrange] at hcfg
        · constructor
          · constructor
            · intro ⟨e, he⟩
              exfalso
              simp [getEmailConfig, hc, hd, hp, hpp, hrange] at he
            · intro h
              exfalso
              rcases h with h | h | h | ⟨q, hq, hr⟩
              · exact hd h
              · exact hp h
              · cases h
              · cases hq; exact hrange hr
          · intro cfg hcfg
            push_neg at hrange
            simp [getEmailConfig, hc, hd, hp, hpp,
              not_or.mpr ⟨not_lt.mpr hrange.1, not_lt.mpr hrange.2⟩] at hcfg
            subst hcfg
            exact ⟨rfl, rfl, hrange.1, hrange.2⟩

/-- Witness for C1: a concrete custom-provider input with a valid host and
port resolves to a profile with exactly that host and port. -/
theorem c1_custom_resolution_witness :
    ({ host := "smtp.corp.io", port := 2525, secure := false,
       auth := { user := "me@corp.io", pass := "pw" } } : EmailConfig).host =
        "smtp.corp.io" ∧
      jsParseInt "2525" =
        some ({ host := "smtp.corp.io", port := 2525, secure := false,
                auth := { user := "me@corp.io", pass := "pw" } } :
              EmailConfig).port ∧
      1 ≤ ({ host := "smtp.corp.io", port := 2525, secure := false,
             auth := { user := "me@corp.io", pass := "pw" } } :
           EmailConfig).port ∧
      ({ host := "smtp.corp.io", port := 2525, secure := false,
         auth := { user := "me@corp.io", pass := "pw" } } :
       EmailConfig).port ≤ 65535 :=
  (c1_custom_resolution
    { emailType := "website", fromAddr := "me@corp.io", password := "pw",
      domain := "smtp.corp.io", smtpPort := "2525", toAddr := "you@x.io",
      cc := "", subject := "s", content := "c" } (by decide)).2
    { host := "smtp.corp.io", port := 2525, secure := false,
      auth := { user := "me@corp.io", pass := "pw" } } (by rfl)

/-! ## JavaScript String.prototype.replace

The bulk-send route substitutes the token `{name}` with
`subject.replace('{name}', n)` (string pattern: first occurrence only) and
`htmlContent.replace(/{name}/g, n)` (global: every occurrence).  Both forms
interpret `$`-patterns in the replacement string, which the model includes.
All patterns used by the code are the nonempty literal token `{name}`. -/

/-- Split a string at the first occurrence of the pattern `p`: returns the
parts before and after the match. -/
def findSplit (p : List Char) : List Char → Option (List Char × List Char)
  | [] => if p = [] then some ([], []) else none
  | c :: cs =>
    if p.isPrefixOf (c :: cs) then some ([], (c :: cs).drop p.length)
    else
      match findSplit p cs with
      | some (b, a) => some (c :: b, a)
      | none => none

/-- Backtick character (code 96). -/
def backtickChar : Char := Char.ofNat 96

/-- Apostrophe character (code 39). -/
def aposChar : Char := Char.ofNat 39

/-- Expansion of a replacement string as done by `String.prototype.replace`:
`$$` yields a dollar, `$&` the matched text, dollar-backtick the part of the
original string before the match, dollar-apostrophe the part after it; any
other sequence is copied literally (the pattern has no capture groups). -/
def expandRepl (matched before after : List Char) : List Char → List Char
  | [] => []
  | c :: rest =>
    if c = '$' then
      match rest with
      | [] => ['$']
      | c2 :: rest2 =>
        if c2 = '$' then '$' :: expandRepl matched before after rest2
        else if c2 = '&' then matched ++ expandRepl matched before after rest2
        else if c2 = backtickChar then
          before ++ expandRepl matched before after rest2
        else if c2 = aposChar then
          after ++ expandRepl matched before after rest2
        else '$' :: c2 :: expandRepl matched before after rest2
    else c :: expandRepl matched before after rest

/-- Model of JavaScript `s.replace(pat, rep)` with a *string* pattern:
replaces only the first occurrence. -/
def jsReplaceFirst (pat rep s : List Char) : List Char :=
  match findSplit pat s with
  | none => s
  | some (b, a) => b ++ expandRepl pat b a rep ++ a

/-- Worker for `jsReplaceAll`: `pre` is the already-processed part of the
original string (needed by the dollar-backtick pattern).  The fuel argument
only bounds the recursion; `s.length` suffices because every match consumes
at least one character of the nonempty pattern. -/
def jsReplaceAllFuel (pat rep : List Char) : Nat → List Char → List Char → List Char
  | 0, _, s => s
  | fuel + 1, pre, s =>
    match findSplit pat s with
    | none => s
    | some (b, a) =>
      b ++ expandRepl pat (pre ++ b) a rep ++
        jsReplaceAllFuel pat rep fuel (pre ++ b ++ pat) a

/-- Model of JavaScript `s.replace(/pat/g, rep)` for a plain nonempty
pattern: replaces every occurrence, scanning left to right without
overlap. -/
def jsReplaceAll (pat rep s : List Char) : List Char :=
  jsReplaceAllFuel pat rep s.length [] s

/-- Specification-side single substitution, written from the spec's words:
the first occurrence of the token is replaced, the replacement inserted
literally. -/
def specReplaceFirst (pat rep s : List Char) : List Char :=
  match findSplit pat s with
  | none => s
  | some (b, a) => b ++ rep ++ a

/-- Worker for `specReplaceFirst`'s global counterpart. -/
def specReplaceAllFuel (pat rep : List Char) : Nat → List Char → List Char
  | 0, s => s
  | fuel + 1, s =>
    match findSplit pat s with
    | none => s
    | some (b, a) => b ++ rep ++ specReplaceAllFuel pat rep fuel a

/-- Specification-side global substitution, written from the spec's words:
every literal occurrence of the token is substituted with the replacement,
inserted literally, left to right without overlap. -/
def specReplaceAll (pat rep s : List Char) : List Char :=
  specReplaceAllFuel pat rep s.length s

/-- Part of the list strictly after the first `>`, if any. -/
def afterGt : List Char → Option (List Char)
  | [] => none
  | c :: cs => if c = '>' then some cs else afterGt cs

/-- Worker for `stripTags`; fuel bounds the recursion, `s.length` suffices
because every step consumes at least one character. -/
def stripTagsFuel : Nat → List Char → List Char
  | 0, s => s
  | _ + 1, [] => []
  | fuel + 1, c :: rest =>
    if c = '<' then
      match afterGt rest with
      | some a => stripTagsFuel fuel a
      | none => c :: stripTagsFuel fuel rest
    else c :: stripTagsFuel fuel rest

/-- Model of `htmlContent.replace(/<[^>]*>/g, '')` (the plain-text fallback):
removes every run from a `<` up to the next `>`; a `<` without a later `>`
is kept. -/
def stripTags (s : List Char) : List Char := stripTagsFuel s.length s

/-- Literal token substituted by the bulk templating. -/
def nameToken : List Char := "{name}".data

/-! ## Server data model (`src/server/models/Company.js` and `Email.js`) -/

/-- Embedded `emailSettings` sub-document of the Company schema. -/
structure EmailSettingsRec where
  email : String
  password : String
  type : String
  smtpHost : Option String
  smtpPort : Option Int
  useSSL : Bool
  useTLS : Bool
deriving Repr, DecidableEq

/-- Embedded `senderInfo` sub-document of the Company schema. -/
structure SenderInfoRec where
  name : String
  signature : Option String
deriving Repr, DecidableEq

/-- Company document (fields used by the dispatch core). -/
structure CompanyRec where
  _id : String
  user : String
  name : String
  emailSettings : EmailSettingsRec
  senderInfo : SenderInfoRec
  isActive : Bool
deriving Repr, DecidableEq

/-! ## Transporter construction (`src/server/routes/emails.js`) -/

/-- Options object passed to nodemailer by the `custom` branch of the
transporter switch (lines 150-163 and 277-290 of `routes/emails.js`). -/
structure CustomTransportOptions where
  host : Option String
  port : Option Int
  secure : Bool
  authUser : String
  authPass : String
  rejectUnauthorized : Bool
deriving Repr, DecidableEq

/-- Transporter configuration: either a well-known `service` profile or the
custom options object. -/
inductive TransporterConfig where
  | service (name : String) (authUser authPass : String)
  | custom (opts : CustomTransportOptions)
deriving Repr, DecidableEq

/-- Embedding of the `switch (emailSettings.type)` transporter construction
of `src/server/routes/emails.js`; `none` models the `default` branch, which
answers 400 "Invalid email type". -/
def createTransporterConfig (s : EmailSettingsRec) : Option TransporterConfig :=
  if s.type = "gmail" then some (.service "gmail" s.email s.password)
  else if s.type = "outlook" then some (.service "outlook" s.email s.password)
  else if s.type = "yahoo" then some (.service "yahoo" s.email s.password)
  else if s.type = "custom" then
    some (.custom { host := s.smtpHost, port := s.smtpPort, secure := s.useSSL,
                    authUser := s.email, authPass := s.password,
                    rejectUnauthorized := s.useTLS })
  else none

/-! ## Bulk campaign runner (`POST /api/emails/send-bulk`) -/

/-- One entry of the `recipients` array. -/
structure Recipient where
  email : String
  name : Option String
deriving Repr, DecidableEq

/-- Value of the expression `recipient.name || ''` as a character list. -/
def recipName (r : Recipient) : List Char := (r.name.getD "").data

/-- Delivery-ledger entry (Email document).  `sentAtSet` records whether the
`sentAt` timestamp is present; `statusHistory` lists the statuses the
in-memory document holds from construction (schema default `pending` unless
`status` is given to the constructor) through each assignment until saved.
The source fields `to` is renamed `toAddr` (`to` is a Lean keyword). -/
structure LedgerEntry where
  user : String
  company : String
  toAddr : String
  subject : List Char
  htmlContent : List Char
  textContent : Option (List Char)
  status : String
  sentAtSet : Bool
  messageId : Option String
  errorMessage : Option String
  statusHistory : List String
deriving Repr, DecidableEq

/-- A message handed to `transporter.sendMail` (`mailOptions`). -/
structure MailMessage where
  fromField : String
  toAddr : String
  subject : List Char
  html : List Char
  text : List Char
deriving Repr, DecidableEq

/-- Result of one `transporter.sendMail` call, abstracting the provider. -/
inductive SendOutcome where
  | ok (messageId : String)
  | err (message : String)
deriving Repr, DecidableEq

/-- Observable step of the bulk loop: a dispatch for recipient `i`, or the
`setTimeout` pause of `ms` milliseconds. -/
inductive BulkEvent where
  | send (i : Nat)
  | pause (ms : Nat)
deriving Repr, DecidableEq

/-- Whether an event is a pause. -/
def BulkEvent.isPause : BulkEvent → Bool
  | .pause _ => true
  | .send _ => false

/-- Whether an event is a dispatch. -/
def BulkEvent.isSend : BulkEvent → Bool
  | .pause _ => false
  | .send _ => true

/-- Entry of `results.emails` returned by the bulk route. -/
structure ResultEntry where
  toAddr : String
  status : String
  messageId : Option String
  error : Option String
deriving Repr, DecidableEq

/-- Aggregate outcome of a bulk run: the returned counters and per-recipient
entries, plus the messages handed to the transport, the persisted ledger
entries, and the execution trace. -/
structure BulkData where
  sent : Nat
  failed : Nat
  emails : List ResultEntry
  messages : List MailMessage
  ledger : List LedgerEntry
  trace : List BulkEvent
deriving Repr, DecidableEq

/-- Ledger entry saved in the success branch of the bulk loop: created with
the schema default status `pending`, then set to `sent` (with `sentAt` and
`messageId`) before the single save. -/
def bulkSentRecord (userId companyId : String) (subject html : List Char)
    (text : Option (List Char)) (r : Recipient) (msgId : String) :
    LedgerEntry :=
  { user := userId, company := companyId, toAddr := r.email,
    subject := jsReplaceFirst nameToken (recipName r) subject,
    htmlContent := jsReplaceAll nameToken (recipName r) html,
    textContent := text.bind (fun t =>
      if t = [] then none else some (jsReplaceAll nameToken (recipName r) t)),
    status := "sent", sentAtSet := true, messageId := some msgId,
    errorMessage := none, statusHistory := ["pending", "sent"] }

/-- Ledger entry saved in the catch branch of the bulk loop: created
directly with `status: 'failed'` and the error message. -/
def bulkFailedRecord (userId companyId : String) (subject html : List Char)
    (text : Option (List Char)) (r : Recipient) (errMsg : String) :
    LedgerEntry :=
  { user := userId, company := companyId, toAddr := r.email,
    subject := jsReplaceFirst nameToken (recipName r) subject,
    htmlContent := jsReplaceAll nameToken (recipName r) html,
    textContent := text.bind (fun t =>
      if t = [] then none else some (jsReplaceAll nameToken (recipName r) t)),
    status := "failed", sentAtSet := false, messageId := none,
    errorMessage := some errMsg, statusHistory := ["failed"] }

/-- The `mailOptions` built for one recipient of the bulk loop.  When the
text template is falsy the plain-text part strips the tags of the *raw*
html template (no `{name}` substitution there, as in the source). -/
def bulkMailMessage (senderName senderEmail : String)
    (subject html : List Char) (text : Option (List Char)) (r : Recipient) :
    MailMessage :=
  { fromField := senderName ++ " <" ++ senderEmail ++ ">",
    toAddr := r.email,
    subject := jsReplaceFirst nameToken (recipName r) subject,
    html := jsReplaceAll nameToken (recipName r) html,
    text := match text with
      | some t =>
        if t = [] then stripTags html
        else jsReplaceAll nameToken (recipName r) t
      | none => stripTags html }

/-- Embedding of the per-recipient loop of `POST /api/emails/send-bulk`
(`src/server/routes/emails.js` lines 302-378).  `outcome i` abstracts the
result of `transporter.sendMail` for recipient number `i`, the only
fallible operation of the loop body; the failure branch is the `catch`
that records a failed ledger entry and continues.  The `trace` lists the
dispatches and the `setTimeout` pauses in execution order; the pause is
emitted only when further recipients remain (`i < recipients.length - 1`). -/
def runBulkLoop (userId companyId senderName senderEmail : String)
    (subject html : List Char) (text : Option (List Char)) (delay : Nat)
    (outcome : Nat → SendOutcome) : Nat → List Recipient → BulkData
  | _, [] => { sent := 0, failed := 0, emails := [], messages := [],
               ledger := [], trace := [] }
  | i, r :: rest =>
    let tail := runBulkLoop userId companyId senderName senderEmail subject
      html text delay outcome (i + 1) rest
    let msg := bulkMailMessage senderName senderEmail subject html text r
    let pauseIfMore : List BulkEvent := if rest = [] then [] else [.pause delay]
    match outcome i with
    | .ok m =>
      { sent := tail.sent + 1, failed := tail.failed,
        emails := { toAddr := r.email, status := "sent", messageId := some m,
                    error := none } :: tail.emails,
        messages := msg :: tail.messages,
        ledger := bulkSentRecord userId companyId subject html text r m ::
          tail.ledger,
        trace := .send i :: (pauseIfMore ++ tail.trace) }
    | .err em =>
      { sent := tail.sent, failed := tail.failed + 1,
        emails := { toAddr := r.email, status := "failed", messageId := none,
                    error := some em } :: tail.emails,
        messages := msg :: tail.messages,
        ledger := bulkFailedRecord userId companyId subject html text r em ::
          tail.ledger,
        trace := .send i :: (pauseIfMore ++ tail.trace) }

/-- Request body of `POST /api/emails/send-bulk`. -/
structure BulkRequest where
  companyId : Option String
  recipients : Option (List Recipient)
  subject : Option String
  htmlContent : Option String
  textContent : Option String
  campaignName : Option String
  delay : Option Nat
deriving Repr, DecidableEq

/-- The 4xx rejections of the bulk route, in source order. -/
inductive BulkAbort where
  | missingFields
  | missingContent
  | companyNotFound
  | invalidEmailType
deriving Repr, DecidableEq

/-- Lookup `Company.findOne({_id: companyId, user, isActive: true})`. -/
def findCompany (companies : List CompanyRec) (userId cid : String) :
    Option CompanyRec :=
  companies.find? (fun c => c._id == cid && c.user == userId && c.isActive)

/-- Embedding of `POST /api/emails/send-bulk`: the validations in source
order (missing companyId/recipients, missing subject/html, unknown company,
unrecognized provider type), then the sequential loop.  The `delay` request
field defaults to 1000 when absent. -/
def sendBulk (companies : List CompanyRec) (userId : String)
    (req : BulkRequest) (outcome : Nat → SendOutcome) :
    Except BulkAbort BulkData :=
  if !jsTruthy req.companyId || (req.recipients.getD []).isEmpty then
    .error .missingFields
  else if !jsTruthy req.subject || !jsTruthy req.htmlContent then
    .error .missingContent
  else
    match findCompany companies userId (req.companyId.getD "") with
    | none => .error .companyNotFound
    | some comp =>
      match createTransporterConfig comp.emailSettings with
      | none => .error .invalidEmailType
      | some _ =>
        .ok (runBulkLoop userId (req.companyId.getD "")
          comp.senderInfo.name comp.emailSettings.email
          (req.subject.getD "").data (req.htmlContent.getD "").data
          (req.textContent.map String.data) (req.delay.getD 1000) outcome
          0 (req.recipients.getD []))

/-! ## Single send (`POST /api/emails/send`) and the file-DB server -/

/-- Ledger entries persisted by one run of `POST /api/emails/send` in
`src/server/routes/emails.js`: the success path saves one record created
`pending` and finalized `sent`.  In the failure path the catch block reads
`emailRecord`, a `const` scoped to the `try` block, which raises a
`ReferenceError`, so the intended failed record is never saved. -/
def singleSendLedger (userId companyId toA : String)
    (subject html : List Char) (text : Option (List Char))
    (outK : SendOutcome) : List LedgerEntry :=
  match outK with
  | .ok m =>
    [{ user := userId, company := companyId, toAddr := toA, subject := subject,
       htmlContent := html, textContent := text, status := "sent",
       sentAtSet := true, messageId := some m, errorMessage := none,
       statusHistory := ["pending", "sent"] }]
  | .err _ => []

/-- Email record pushed by `app.post('/api/emails/send')` of the file-DB
server (`src/unnamed/part_006` lines 801-825). -/
structure P6EmailRecord where
  user : String
  company : String
  toAddr : String
  cc : Option String
  subject : List Char
  htmlContent : List Char
  textContent : Option (List Char)
  status : String
  sentAtSet : Bool
  messageId : Option String
  errorMessage : Option String
  metaSmtpResponse : String
  statusHistory : List String
deriving Repr, DecidableEq

/-- The record built on the (only) success path of the file-DB send route:
created directly with `status: 'sent'`; `messageId` falls back to a
generated id when the provider returns a falsy one; `cc` is stored as
`cc || null`; no `errorMessage` key exists on this path. -/
def p6SentRecord (userId companyId toA : String) (cc : Option String)
    (subject html : List Char) (text : Option (List Char))
    (infoMessageId fallbackId rawResponse : String) : P6EmailRecord :=
  { user := userId, company := companyId, toAddr := toA,
    cc := if jsTruthy cc then cc else none,
    subject := subject, htmlContent := html, textContent := text,
    status := "sent", sentAtSet := true,
    messageId :=
      some (if infoMessageId = "" then fallbackId else infoMessageId),
    errorMessage := none,
    metaSmtpResponse := rawResponse,
    statusHistory := ["sent"] }

/-! ## Relating the JavaScript replacement to literal substitution -/

/-- A replacement string without a dollar character expands to itself. -/
theorem expandRepl_of_no_dollar (matched before after rep : List Char)
    (h : '$' ∉ rep) : expandRepl matched before after rep = rep := by
  induction rep with
  | nil => rfl
  | cons c rest ih =>
    have hc : ¬ c = '$' := fun hcc => h (hcc ▸ List.mem_cons_self c rest)
    have hrest : '$' ∉ rest := fun hm => h (List.mem_cons_of_mem c hm)
    rw [expandRepl.eq_def]
    simp only [if_neg hc]
    rw [ih hrest]

/-- Dollar-free replacements make the JavaScript first-occurrence replace
agree with literal substitution of the first occurrence. -/
theorem jsReplaceFirst_eq_spec (pat rep s : List Char) (h : '$' ∉ rep) :
    jsReplaceFirst pat rep s = specReplaceFirst pat rep s := by
  unfold jsReplaceFirst specReplaceFirst
  cases hfs : findSplit pat s with
  | none => rfl
  | some ba =>
    cases ba with
    | mk b a => simp [expandRepl_of_no_dollar _ _ _ _ h]

/-- Dollar-free replacements make the JavaScript global replace agree with
literal substitution of every occurrence (fuel-indexed worker version). -/
theorem jsReplaceAllFuel_eq_spec (pat rep : List Char) (h : '$' ∉ rep) :
    ∀ fuel pre s,
      jsReplaceAllFuel pat rep fuel pre s = specReplaceAllFuel pat rep fuel s := by
  intro fuel
  induction fuel with
  | zero => intro pre s; rfl
  | succ n ih =>
    intro pre s
    unfold jsReplaceAllFuel specReplaceAllFuel
    cases hfs : findSplit pat s with
    | none => rfl
    | some ba =>
      cases ba with
      | mk b a => simp [expandRepl_of_no_dollar _ _ _ _ h, ih]

/-- Dollar-free replacements make the JavaScript global replace agree with
literal substitution of every occurrence. -/
theorem jsReplaceAll_eq_spec (pat rep s : List Char) (h : '$' ∉ rep) :
    jsReplaceAll pat rep s = specReplaceAll pat rep s :=
  jsReplaceAllFuel_eq_spec pat rep h s.length [] s

/-! ## Shape of the bulk loop output -/

/-- Entry of `results.emails` produced for the recipient at index `p.1`. -/
def bulkResultEntry (outcome : Nat → SendOutcome) (p : Nat × Recipient) :
    ResultEntry :=
  match outcome p.1 with
  | .ok m => { toAddr := p.2.email, status := "sent", messageId := some m,
               error := none }
  | .err em => { toAddr := p.2.email, status := "failed", messageId := none,
                 error := some em }

/-- Ledger entry produced for the recipient at index `p.1`. -/
def bulkLedgerEntry (userId companyId : String) (subject html : List Char)
    (text : Option (List Char)) (outcome : Nat → SendOutcome)
    (p : Nat × Recipient) : LedgerEntry :=
  match outcome p.1 with
  | .ok m => bulkSentRecord userId companyId subject html text p.2 m
  | .err em => bulkFailedRecord userId companyId subject html text p.2 em

/-- The event sequence the spec prescribes for `n` sequential sends starting
at index `i`: the sends in input order, with exactly one pause of the
configured delay between consecutive sends and none after the last. -/
def specBulkTrace (delay : Nat) : Nat → Nat → List BulkEvent
  | _, 0 => []
  | i, 1 => [.send i]
  | i, n + 2 => .send i :: .pause delay :: specBulkTrace delay (i + 1) (n + 1)

theorem runBulkLoop_emails (u c sn se : String) (subject html : List Char)
    (text : Option (List Char)) (d : Nat) (out : Nat → SendOutcome) :
    ∀ rs i, (runBulkLoop u c sn se subject html text d out i rs).emails =
      (rs.enumFrom i).map (bulkResultEntry out) := by
  intro rs
  induction rs with
  | nil => intro i; rfl
  | cons r rest ih =>
    intro i
    cases ho : out i with
    | ok m => simp [runBulkLoop, ho, ih, List.enumFrom, bulkResultEntry]
    | err em => simp [runBulkLoop, ho, ih, List.enumFrom, bulkResultEntry]

theorem runBulkLoop_messages (u c sn se : String) (subject html : List Char)
    (text : Option (List Char)) (d : Nat) (out : Nat → SendOutcome) :
    ∀ rs i, (runBulkLoop u c sn se subject html text d out i rs).messages =
      rs.map (bulkMailMessage sn se subject html text) := by
  intro rs
  induction rs with
  | nil => intro i; rfl
  | cons r rest ih =>
    intro i
    cases ho : out i with
    | ok m => simp [runBulkLoop, ho, ih]
    | err em => simp [runBulkLoop, ho, ih]

theorem runBulkLoop_ledger (u c sn se : String) (subject html : List Char)
    (text : Option (List Char)) (d : Nat) (out : Nat → SendOutcome) :
    ∀ rs i, (runBulkLoop u c sn se subject html text d out i rs).ledger =
      (rs.enumFrom i).map (bulkLedgerEntry u c subject html text out) := by
  intro rs
  induction rs with
  | nil => intro i; rfl
  | cons r rest ih =>
    intro i
    cases ho : out i with
    | ok m => simp [runBulkLoop, ho, ih, List.enumFrom, bulkLedgerEntry]
    | err em => simp [runBulkLoop, ho, ih, List.enumFrom, bulkLedgerEntry]

theorem runBulkLoop_counts (u c sn se : String) (subject html : List Char)
    (text : Option (List Char)) (d : Nat) (out : Nat → SendOutcome) :
    ∀ rs i, (runBulkLoop u c sn se subject html text d out i rs).sent +
        (runBulkLoop u c sn se subject html text d out i rs).failed =
      rs.length := by
  intro rs
  induction rs with
  | nil => intro i; rfl
  | cons r rest ih =>
    intro i
    have htail := ih (i + 1)
    cases ho : out i with
    | ok m =>
      simp only [runBulkLoop, ho, List.length_cons]
      omega
    | err em =>
      simp only [runBulkLoop, ho, List.length_cons]
      omega

theorem runBulkLoop_trace (u c sn se : String) (subject html : List Char)
    (text : Option (List Char)) (d : Nat) (out : Nat → SendOutcome) :
    ∀ rs i, (runBulkLoop u c sn se subject html text d out i rs).trace =
      specBulkTrace d i rs.length := by
  intro rs
  induction rs with
  | nil => intro i; rfl
  | cons r rest ih =>
    intro i
    have hgen : (runBulkLoop u c sn se subject html text d out i
        (r :: rest)).trace =
        BulkEvent.send i :: ((if rest = [] then [] else [BulkEvent.pause d]) ++
          specBulkTrace d (i + 1) rest.length) := by
      cases ho : out i with
      | ok m => simp only [runBulkLoop, ho]; rw [ih]
      | err em => simp only [runBulkLoop, ho]; rw [ih]
    rw [hgen]
    cases rest with
    | nil => simp [specBulkTrace]
    | cons r2 rest2 => simp [specBulkTrace]

theorem specBulkTrace_pause_count (d : Nat) :
    ∀ n i, ((specBulkTrace d i n).filter BulkEvent.isPause).length = n - 1 := by
  intro n
  induction n using Nat.strong_induction_on with
  | _ n ih =>
    intro i
    rcases n with _ | (_ | m)
    · rfl
    · rfl
    · have h1 := ih (m + 1) (by omega) (i + 1)
      simp [specBulkTrace, List.filter_cons, BulkEvent.isPause, h1]

theorem specBulkTrace_sends (d : Nat) :
    ∀ n i, (specBulkTrace d i n).filter BulkEvent.isSend =
      (List.range' i n).map BulkEvent.send := by
  intro n
  induction n using Nat.strong_induction_on with
  | _ n ih =>
    intro i
    rcases n with _ | (_ | m)
    · rfl
    · rfl
    · have h1 := ih (m + 1) (by omega) (i + 1)
      simp [specBulkTrace, List.filter_cons, BulkEvent.isSend,
        List.range'_succ, h1]

theorem specBulkTrace_pause_delay (d : Nat) :
    ∀ n i ev, ev ∈ specBulkTrace d i n → ∀ ms, ev = .pause ms → ms = d := by
  intro n
  induction n using Nat.strong_induction_on with
  | _ n ih =>
    intro i ev hmem ms hev
    subst hev
    rcases n with _ | (_ | m)
    · simp [specBulkTrace] at hmem
    · simp [specBulkTrace] at hmem
    · simp [specBulkTrace] at hmem
      rcases hmem with h | h
      · exact h
      · exact ih (m + 1) (by omega) (i + 1) _ h ms rfl

theorem specBulkTrace_cons (d i n : Nat) (h : n ≠ 0) :
    ∃ t, specBulkTrace d i n = BulkEvent.send i :: t := by
  rcases n with _ | (_ | m)
  · exact absurd rfl h
  · exact ⟨[], rfl⟩
  · exact ⟨_, rfl⟩

theorem specBulkTrace_getLast (d : Nat) :
    ∀ n i, n ≠ 0 →
      (specBulkTrace d i n).getLast? = some (.send (i + n - 1)) := by
  intro n
  induction n using Nat.strong_induction_on with
  | _ n ih =>
    intro i hn
    rcases n with _ | (_ | m)
    · exact absurd rfl hn
    · simp [specBulkTrace]
    · obtain ⟨t, ht⟩ := specBulkTrace_cons d (i + 1) (m + 1) (by omega)
      have h1 := ih (m + 1) (by omega) (i + 1) (by omega)
      simp only [specBulkTrace]
      rw [ht] at h1 ⊢
      rw [List.getLast?_cons_cons, List.getLast?_cons_cons, h1]
      congr 2
      omega

/-- Elimination for a successful bulk send: the validations passed and the
returned data is the loop output for the found company. -/
theorem sendBulk_ok_elim (companies : List CompanyRec) (userId : String)
    (req : BulkRequest) (outcome : Nat → SendOutcome) (data : BulkData)
    (hok : sendBulk companies userId req outcome = .ok data) :
    ∃ comp, findCompany companies userId (req.companyId.getD "") = some comp ∧
      data = runBulkLoop userId (req.companyId.getD "") comp.senderInfo.name
        comp.emailSettings.email (req.subject.getD "").data
        (req.htmlContent.getD "").data (req.textContent.map String.data)
        (req.delay.getD 1000) outcome 0 (req.recipients.getD []) := by
  unfold sendBulk at hok
  split at hok
  · exact absurd hok (by simp)
  · split at hok
    · exact absurd hok (by simp)
    · split at hok
      · exact absurd hok (by simp)
      · rename_i comp hfind
        split at hok
        · exact absurd hok (by simp)
        · rename_i cfg hcfg
          injection hok with h
          exact ⟨comp, hfind, h.symm⟩

/-! ## Concrete fixtures for witnesses and counterexamples -/

/-- Gmail-provider settings fixture. -/
def demoGmailSettings : EmailSettingsRec :=
  { email := "a@b.c", password := "pw", type := "gmail", smtpHost := none,
    smtpPort := none, useSSL := true, useTLS := true }

/-- Active company fixture owned by user `u1`. -/
def demoCompany : CompanyRec :=
  { _id := "c1", user := "u1", name := "Acme",
    emailSettings := demoGmailSettings,
    senderInfo := { name := "S", signature := none }, isActive := true }

/-- Recipient fixture named `A`. -/
def demoRecipA : Recipient := { email := "r@x.io", name := some "A" }

/-- Compact bulk-request builder for the fixtures. -/
def mkBulkReq (cid : Option String) (recips : Option (List Recipient))
    (subject html text : Option String) (delay : Option Nat) : BulkRequest :=
  { companyId := cid, recipients := recips, subject := subject,
    htmlContent := html, textContent := text, campaignName := none,
    delay := delay }

/-- Fallback `BulkData` value used when destructuring an `Except`. -/
def emptyBulkData : BulkData :=
  { sent := 0, failed := 0, emails := [], messages := [], ledger := [],
    trace := [] }

/-! ## Claim C2 -/

/-- **C2, counterexample.**  The claim states that the subject of the message
sent to a bulk recipient is the subject template with *every* literal
occurrence of the token substituted.  On the concrete run below the subject
template has two occurrences; the message sent (and the ledger entry) carry
only the first substituted, because the route uses `subject.replace('{name}',
n)` with a string pattern, which replaces only the first occurrence, while
`htmlContent`/`textContent` use the global regex form. -/
theorem c2_counterexample :
    (sendBulk [demoCompany] "u1"
        (mkBulkReq (some "c1") (some [demoRecipA])
          (some "Hi {name} {name}") (some "<b>B</b>") none none)
        (fun _ => .ok "mid")).map
        (fun d => (d.messages.map MailMessage.subject,
                   d.ledger.map LedgerEntry.subject)) =
      .ok (["Hi A {name}".data], ["Hi A {name}".data]) ∧
    specReplaceAll nameToken "A".data "Hi {name} {name}".data =
      "Hi A A".data ∧
    "Hi A {name}".data ≠ "Hi A A".data := by
  refine ⟨rfl, rfl, by decide⟩

/-- **C2, amended.**  For every bulk send, recipient `r` at position `i`
receives a message (and gets a ledger entry) whose html and text are the
templates with every literal occurrence of `{name}` replaced by `r.name`
(empty string when absent), while the subject has only the *first*
occurrence replaced; stated for names without a dollar character (JavaScript
replacement-pattern semantics applies otherwise). -/
theorem c2_templating_amended (companies : List CompanyRec) (userId : String)
    (req : BulkRequest) (outcome : Nat → SendOutcome) (rs : List Recipient)
    (i : Nat) (r : Recipient) (data : BulkData)
    (hrs : req.recipients = some rs)
    (hr : rs[i]? = some r)
    (hok : sendBulk companies userId req outcome = .ok data)
    (hnd : '$' ∉ recipName r) :
    ∃ msg e, data.messages[i]? = some msg ∧ data.ledger[i]? = some e ∧
      msg.subject =
        specReplaceFirst nameToken (recipName r) (req.subject.getD "").data ∧
      msg.html =
        specReplaceAll nameToken (recipName r) (req.htmlContent.getD "").data ∧
      e.subject = msg.subject ∧ e.htmlContent = msg.html ∧
      (∀ t, req.textContent = some t → t ≠ "" →
        msg.text = specReplaceAll nameToken (recipName r) t.data ∧
        e.textContent = some (specReplaceAll nameToken (recipName r) t.data)) := by
  obtain ⟨comp, hfind, hdata⟩ := sendBulk_ok_elim _ _ _ _ _ hok
  subst hdata
  rw [runBulkLoop_messages, runBulkLoop_ledger, hrs]
  refine ⟨bulkMailMessage comp.senderInfo.name comp.emailSettings.email
      (req.subject.getD "").data (req.htmlContent.getD "").data
      (req.textContent.map String.data) r,
    bulkLedgerEntry userId (req.companyId.getD "")
      (req.subject.getD "").data (req.htmlContent.getD "").data
      (req.textContent.map String.data) outcome (i, r), ?_, ?_, ?_, ?_, ?_, ?_, ?_⟩
  · rw [List.getElem?_map, Option.getD_some, hr]; rfl
  · rw [List.getElem?_map, List.getElem?_enumFrom, Option.getD_some, hr]
    simp
  · exact jsReplaceFirst_eq_spec _ _ _ hnd
  · exact jsReplaceAll_eq_spec _ _ _ hnd
  · cases ho : outcome i with
    | ok m =>
      simp [bulkLedgerEntry, ho, bulkSentRecord, bulkMailMessage]
    | err em =>
      simp [bulkLedgerEntry, ho, bulkFailedRecord, bulkMailMessage]
  · cases ho : outcome i with
    | ok m =>
      simp [bulkLedgerEntry, ho, bulkSentRecord, bulkMailMessage]
    | err em =>
      simp [bulkLedgerEntry, ho, bulkFailedRecord, bulkMailMessage]
  · intro t htc htne
    have htd : t.data ≠ [] := by
      intro hnil
      apply htne
      cases t
      simp at hnil
      simp [hnil]
    constructor
    · simp [bulkMailMessage, htc, htd, jsReplaceAll_eq_spec _ _ _ hnd]
    · cases ho : outcome i with
      | ok m =>
        simp [bulkLedgerEntry, ho, bulkSentRecord, htc, htd,
          jsReplaceAll_eq_spec _ _ _ hnd]
      | err em =>
        simp [bulkLedgerEntry, ho, bulkFailedRecord, htc, htd,
          jsReplaceAll_eq_spec _ _ _ hnd]

/-- Witness for C2 (amended form) at a concrete one-recipient run. -/
theorem c2_templating_amended_witness :
    ∃ msg e,
      ((sendBulk [demoCompany] "u1"
          (mkBulkReq (some "c1") (some [demoRecipA]) (some "Hi {name}")
            (some "<b>{name}</b>") (some "T {name}") none)
          (fun _ => .ok "mid")).toOption.getD
        emptyBulkData).messages[(0 : Nat)]? = some msg ∧
      ((sendBulk [demoCompany] "u1"
          (mkBulkReq (some "c1") (some [demoRecipA]) (some "Hi {name}")
            (some "<b>{name}</b>") (some "T {name}") none)
          (fun _ => .ok "mid")).toOption.getD
        emptyBulkData).ledger[(0 : Nat)]? = some e ∧
      msg.subject = specReplaceFirst nameToken (recipName demoRecipA)
        (((mkBulkReq (some "c1") (some [demoRecipA]) (some "Hi {name}")
            (some "<b>{name}</b>") (some "T {name}") none).subject).getD
          "").data ∧
      msg.html = specReplaceAll nameToken (recipName demoRecipA)
        (((mkBulkReq (some "c1") (some [demoRecipA]) (some "Hi {name}")
            (some "<b>{name}</b>") (some "T {name}") none).htmlContent).getD
          "").data ∧
      e.subject = msg.subject ∧ e.htmlContent = msg.html ∧
      (∀ t, (mkBulkReq (some "c1") (some [demoRecipA]) (some "Hi {name}")
            (some "<b>{name}</b>") (some "T {name}") none).textContent =
          some t → t ≠ "" →
        msg.text = specReplaceAll nameToken (recipName demoRecipA) t.data ∧
        e.textContent =
          some (specReplaceAll nameToken (recipName demoRecipA) t.data)) :=
  c2_templating_amended [demoCompany] "u1"
    (mkBulkReq (some "c1") (some [demoRecipA]) (some "Hi {name}")
      (some "<b>{name}</b>") (some "T {name}") none)
    (fun _ => .ok "mid") [demoRecipA] 0 demoRecipA _ rfl rfl rfl (by decide)

/-! ## Claim C3 -/

/-- **C3, counterexample.**  The claim states the custom profile has
`secure = (useSSL flag OR port == 465)`.  For the settings below that
formula yields `true`, but the profile the route builds has
`secure = false`: the code passes `secure: emailSettings.useSSL` alone. -/
theorem c3_counterexample :
    createTransporterConfig
        { email := "a@b.c", password := "pw", type := "custom",
          smtpHost := some "smtp.x.io", smtpPort := some 465,
          useSSL := false, useTLS := true } =
      some (.custom
        { host := some "smtp.x.io", port := some 465, secure := false,
          authUser := "a@b.c", authPass := "pw",
          rejectUnauthorized := true }) ∧
    (({ email := "a@b.c", password := "pw", type := "custom",
        smtpHost := some "smtp.x.io", smtpPort := some 465,
        useSSL := false, useTLS := true } : EmailSettingsRec).useSSL ||
      (({ email := "a@b.c", password := "pw", type := "custom",
          smtpHost := some "smtp.x.io", smtpPort := some 465,
          useSSL := false, useTLS := true } : EmailSettingsRec).smtpPort ==
        some 465)) = true := by
  refine ⟨by decide, by decide⟩

/-- **C3, amended.**  For every company with provider `custom`, the profile
handed to the transport uses the stored host and port, `secure` equal to the
use-SSL flag alone (port 465 does not force it), auth equal to the account
email and secret, and certificate validation (`rejectUnauthorized`)
controlled by the use-TLS flag. -/
theorem c3_custom_profile_amended (s : EmailSettingsRec)
    (h : s.type = "custom") :
    createTransporterConfig s = some (.custom
      { host := s.smtpHost, port := s.smtpPort, secure := s.useSSL,
        authUser := s.email, authPass := s.password,
        rejectUnauthorized := s.useTLS }) := by
  simp [createTransporterConfig, h]

/-- Witness for C3 (amended form) at concrete custom settings. -/
theorem c3_custom_profile_amended_witness :
    createTransporterConfig
        { email := "a@b.c", password := "pw", type := "custom",
          smtpHost := some "smtp.x.io", smtpPort := some 2525,
          useSSL := true, useTLS := false } =
      some (.custom
        { host := some "smtp.x.io", port := some 2525, secure := true,
          authUser := "a@b.c", authPass := "pw",
          rejectUnauthorized := false }) :=
  c3_custom_profile_amended
    { email := "a@b.c", password := "pw", type := "custom",
      smtpHost := some "smtp.x.io", smtpPort := some 2525,
      useSSL := true, useTLS := false } rfl

/-! ## Claim C4 -/

theorem bulkResultEntry_toAddr (out : Nat → SendOutcome)
    (p : Nat × Recipient) : (bulkResultEntry out p).toAddr = p.2.email := by
  cases ho : out p.1 <;> simp [bulkResultEntry, ho]

theorem bulkLedgerEntry_toAddr (u c : String) (subject html : List Char)
    (text : Option (List Char)) (out : Nat → SendOutcome)
    (p : Nat × Recipient) :
    (bulkLedgerEntry u c subject html text out p).toAddr = p.2.email := by
  cases ho : out p.1 <;>
    simp [bulkLedgerEntry, ho, bulkSentRecord, bulkFailedRecord]

theorem enumFrom_map_snd_email (rs : List Recipient) :
    ∀ n, (rs.enumFrom n).map (fun p => p.2.email) = rs.map Recipient.email := by
  induction rs with
  | nil => intro n; rfl
  | cons r rest ih => intro n; simp [List.enumFrom, ih]

/-- Characterization of when the bulk route rejects the request before any
send: exactly the source-order validation failures. -/
theorem sendBulk_error_iff (companies : List CompanyRec) (userId : String)
    (req : BulkRequest) (outcome : Nat → SendOutcome) :
    (∃ a, sendBulk companies userId req outcome = .error a) ↔
      req.recipients = none ∨ req.recipients = some [] ∨
      jsTruthy req.companyId = false ∨ jsTruthy req.subject = false ∨
      jsTruthy req.htmlContent = false ∨
      findCompany companies userId (req.companyId.getD "") = none ∨
      (∃ c, findCompany companies userId (req.companyId.getD "") = some c ∧
        createTransporterConfig c.emailSettings = none) := by
  have hempty : (req.recipients.getD []).isEmpty = true ↔
      req.recipients = none ∨ req.recipients = some [] := by
    cases hre : req.recipients with
    | none => simp
    | some l => cases l <;> simp
  by_cases h1 : (!jsTruthy req.companyId || (req.recipients.getD []).isEmpty)
      = true
  · have habort : sendBulk companies userId req outcome =
        .error .missingFields := by
      unfold sendBulk
      rw [if_pos h1]
    have hrhs : req.recipients = none ∨ req.recipients = some [] ∨
        jsTruthy req.companyId = false ∨ jsTruthy req.subject = false ∨
        jsTruthy req.htmlContent = false ∨
        findCompany companies userId (req.companyId.getD "") = none ∨
        (∃ c, findCompany companies userId (req.companyId.getD "") = some c ∧
          createTransporterConfig c.emailSettings = none) := by
      rcases Bool.or_eq_true_iff.mp h1 with h | h
      · exact Or.inr (Or.inr (Or.inl (by simpa using h)))
      · rcases hempty.mp h with h' | h'
        · exact Or.inl h'
        · exact Or.inr (Or.inl h')
    exact ⟨fun _ => hrhs, fun _ => ⟨_, habort⟩⟩
  · have h1' : jsTruthy req.companyId = true ∧
        (req.recipients.getD []).isEmpty = false := by
      have h1f : (!jsTruthy req.companyId ||
          (req.recipients.getD []).isEmpty) = false := by simpa using h1
      have := Bool.or_eq_false_iff.mp h1f
      exact ⟨by simpa using this.1, this.2⟩
    by_cases h2 : (!jsTruthy req.subject || !jsTruthy req.htmlContent) = true
    · have habort : sendBulk companies userId req outcome =
          .error .missingContent := by
        unfold sendBulk
        rw [if_neg h1, if_pos h2]
      have hrhs : req.recipients = none ∨ req.recipients = some [] ∨
          jsTruthy req.companyId = false ∨ jsTruthy req.subject = false ∨
          jsTruthy req.htmlContent = false ∨
          findCompany companies userId (req.companyId.getD "") = none ∨
          (∃ c, findCompany companies userId (req.companyId.getD "") = some c ∧
            createTransporterConfig c.emailSettings = none) := by
        rcases Bool.or_eq_true_iff.mp h2 with h | h
        · exact Or.inr (Or.inr (Or.inr (Or.inl (by simpa using h))))
        · exact Or.inr (Or.inr (Or.inr (Or.inr (Or.inl (by simpa using h)))))
      exact ⟨fun _ => hrhs, fun _ => ⟨_, habort⟩⟩
    · have h2' : jsTruthy req.subject = true ∧
          jsTruthy req.htmlContent = true := by
        have h2f : (!jsTruthy req.subject ||
            !jsTruthy req.htmlContent) = false := by simpa using h2
        have := Bool.or_eq_false_iff.mp h2f
        exact ⟨by simpa using this.1, by simpa using this.2⟩
      cases hfind : findCompany companies userId (req.companyId.getD "") with
      | none =>
        have habort : sendBulk companies userId req outcome =
            .error .companyNotFound := by
          simp [sendBulk, h1, h2, hfind]
        exact ⟨fun _ => Or.inr (Or.inr (Or.inr (Or.inr (Or.inr
          (Or.inl rfl))))), fun _ => ⟨_, habort⟩⟩
      | some comp =>
        cases hcfg : createTransporterConfig comp.emailSettings with
        | none =>
          have habort : sendBulk companies userId req outcome =
              .error .invalidEmailType := by
            simp [sendBulk, h1, h2, hfind, hcfg]
          exact ⟨fun _ => Or.inr (Or.inr (Or.inr (Or.inr (Or.inr (Or.inr
            ⟨comp, rfl, hcfg⟩))))), fun _ => ⟨_, habort⟩⟩
        | some cfg =>
          have hok : sendBulk companies userId req outcome =
              .ok (runBulkLoop userId (req.companyId.getD "")
                comp.senderInfo.name comp.emailSettings.email
                (req.subject.getD "").data (req.htmlContent.getD "").data
                (req.textContent.map String.data) (req.delay.getD 1000)
                outcome 0 (req.recipients.getD [])) := by
            simp [sendBulk, h1, h2, hfind, hcfg]
          constructor
          · intro ⟨a, ha⟩
            rw [hok] at ha
            exact absurd ha (by simp)
          · intro hrhs
            exfalso
            rcases hrhs with h | h | h | h | h | h | ⟨c2, hc2, hcfg2⟩
            · rw [h] at h1'; simp at h1'
            · rw [h] at h1'; simp at h1'
            · rw [h1'.1] at h; cases h
            · rw [h2'.1] at h; cases h
            · rw [h2'.2] at h; cases h
            · cases h
            · injection hc2 with hee
              rw [← hee] at hcfg2
              rw [hcfg] at hcfg2
              cases hcfg2

/-- Second recipient fixture (no name). -/
def demoRecipB : Recipient := { email := "s@x.io", name := none }

/-- Outcome fixture: the first dispatch succeeds, every later one fails. -/
def demoOutcome : Nat → SendOutcome :=
  fun i => if i = 0 then .ok "m0" else .err "boom"

/-- Two-recipient bulk request fixture with the default delay. -/
def demoBulkReq2 : BulkRequest :=
  mkBulkReq (some "c1") (some [demoRecipA, demoRecipB]) (some "S {name}")
    (some "<b>B</b>") (some "T") none

/-- The data returned by the fixture bulk run. -/
def demoBulkData : BulkData :=
  (sendBulk [demoCompany] "u1" demoBulkReq2 demoOutcome).toOption.getD
    emptyBulkData

/-- **C4, counterexample.**  The claim says the bulk operation aborts before
any send only for a bad company or an empty/missing recipient list.  The
concrete run below has an existing active company and a nonempty recipient
list, yet it aborts (before any send) because the subject is missing. -/
theorem c4_counterexample :
    sendBulk [demoCompany] "u1"
        (mkBulkReq (some "c1") (some [demoRecipA]) none (some "<b>B</b>")
          none none) (fun _ => .ok "m") = .error .missingContent ∧
    (findCompany [demoCompany] "u1" "c1").isSome = true ∧
    (mkBulkReq (some "c1") (some [demoRecipA]) none (some "<b>B</b>")
      none none).recipients = some [demoRecipA] := by
  refine ⟨rfl, rfl, rfl⟩

/-- **C4, amended.**  A bulk send aborts before any send occurs exactly for
a pre-run validation failure: missing/empty recipient list, missing company
id, missing subject or html template, unknown/inactive company, or an
unrecognized provider type.  Once the run starts, a dispatch error on one
recipient does not abort it: for every outcome assignment the run returns,
every recipient gets exactly one ledger entry and one outcome entry, both
in input-list order, the counts satisfy `sent + failed = n`, and each
recipient's ledger entry is `sent` or `failed` according to its own
dispatch outcome. -/
theorem c4_bulk_isolation_amended (companies : List CompanyRec)
    (userId : String) (req : BulkRequest) (outcome : Nat → SendOutcome) :
    ((∃ a, sendBulk companies userId req outcome = .error a) ↔
      req.recipients = none ∨ req.recipients = some [] ∨
      jsTruthy req.companyId = false ∨ jsTruthy req.subject = false ∨
      jsTruthy req.htmlContent = false ∨
      findCompany companies userId (req.companyId.getD "") = none ∨
      (∃ c, findCompany companies userId (req.companyId.getD "") = some c ∧
        createTransporterConfig c.emailSettings = none)) ∧
    (∀ rs data, req.recipients = some rs →
      sendBulk companies userId req outcome = .ok data →
      data.emails.map ResultEntry.toAddr = rs.map Recipient.email ∧
      data.ledger.map LedgerEntry.toAddr = rs.map Recipient.email ∧
      data.sent + data.failed = rs.length ∧
      (∀ i r, rs[i]? = some r → ∃ e, data.ledger[i]? = some e ∧
        e.toAddr = r.email ∧
        ((∃ m, outcome i = .ok m ∧ e.status = "sent" ∧
            e.messageId = some m) ∨
         (∃ ms, outcome i = .err ms ∧ e.status = "failed" ∧
            e.errorMessage = some ms)))) := by
  refine ⟨sendBulk_error_iff companies userId req outcome, ?_⟩
  intro rs data hrs hok
  obtain ⟨comp, hfind, hdata⟩ := sendBulk_ok_elim _ _ _ _ _ hok
  subst hdata
  simp only [hrs, Option.getD_some]
  refine ⟨?_, ?_, runBulkLoop_counts _ _ _ _ _ _ _ _ _ _ _, ?_⟩
  · rw [runBulkLoop_emails, List.map_map]
    have hfun : (ResultEntry.toAddr ∘ bulkResultEntry outcome) =
        fun p => p.2.email := funext (bulkResultEntry_toAddr outcome)
    rw [hfun, enumFrom_map_snd_email]
  · rw [runBulkLoop_ledger, List.map_map]
    have hfun : (LedgerEntry.toAddr ∘ bulkLedgerEntry userId
        (req.companyId.getD "") (req.subject.getD "").data
        (req.htmlContent.getD "").data (req.textContent.map String.data)
        outcome) = fun p => p.2.email :=
      funext (bulkLedgerEntry_toAddr _ _ _ _ _ outcome)
    rw [hfun, enumFrom_map_snd_email]
  · intro i r hri
    rw [runBulkLoop_ledger, List.getElem?_map, List.getElem?_enumFrom, hri]
    simp only [Option.map_some', Nat.zero_add]
    refine ⟨_, rfl, ?_, ?_⟩
    · exact bulkLedgerEntry_toAddr _ _ _ _ _ outcome (i, r)
    · cases ho : outcome i with
      | ok m =>
        exact Or.inl ⟨m, rfl, by simp [bulkLedgerEntry, ho, bulkSentRecord]⟩
      | err ms =>
        exact Or.inr ⟨ms, rfl, by simp [bulkLedgerEntry, ho, bulkFailedRecord]⟩

/-- Witness for C4 (amended form): the fixture run with one success and one
failure completes with one ledger entry per recipient, in order, and
`sent + failed = 2`. -/
theorem c4_bulk_isolation_amended_witness :
    demoBulkData.emails.map ResultEntry.toAddr =
      [demoRecipA, demoRecipB].map Recipient.email ∧
    demoBulkData.ledger.map LedgerEntry.toAddr =
      [demoRecipA, demoRecipB].map Recipient.email ∧
    demoBulkData.sent + demoBulkData.failed =
      [demoRecipA, demoRecipB].length ∧
    (∀ i r, [demoRecipA, demoRecipB][i]? = some r →
      ∃ e, demoBulkData.ledger[i]? = some e ∧ e.toAddr = r.email ∧
        ((∃ m, demoOutcome i = .ok m ∧ e.status = "sent" ∧
            e.messageId = some m) ∨
         (∃ ms, demoOutcome i = .err ms ∧ e.status = "failed" ∧
            e.errorMessage = some ms))) :=
  (c4_bulk_isolation_amended [demoCompany] "u1" demoBulkReq2 demoOutcome).2
    [demoRecipA, demoRecipB] demoBulkData rfl rfl

/-! ## Claim C5 -/

/-- **C5.**  Every successful bulk run over `n` recipients processes them
strictly sequentially in input order, and the pause of the configured delay
(default 1000 ms) is inserted exactly between consecutive sends: the trace
equals the canonical send/pause interleaving, it contains exactly `n - 1`
pauses all of the configured duration, its dispatches are
`send 0, …, send (n-1)` in order, and the final event is the last send,
never a pause. -/
theorem c5_sequential_pacing (companies : List CompanyRec) (userId : String)
    (req : BulkRequest) (outcome : Nat → SendOutcome) (rs : List Recipient)
    (data : BulkData) (hrs : req.recipients = some rs)
    (hok : sendBulk companies userId req outcome = .ok data) :
    data.trace = specBulkTrace (req.delay.getD 1000) 0 rs.length ∧
    (data.trace.filter BulkEvent.isPause).length = rs.length - 1 ∧
    data.trace.filter BulkEvent.isSend =
      (List.range' 0 rs.length).map BulkEvent.send ∧
    (∀ ev ∈ data.trace, ∀ ms, ev = .pause ms → ms = req.delay.getD 1000) ∧
    (rs ≠ [] → data.trace.getLast? = some (.send (rs.length - 1))) := by
  obtain ⟨comp, hfind, hdata⟩ := sendBulk_ok_elim _ _ _ _ _ hok
  subst hdata
  simp only [hrs, Option.getD_some]
  have htr := runBulkLoop_trace userId (req.companyId.getD "")
    comp.senderInfo.name comp.emailSettings.email (req.subject.getD "").data
    (req.htmlContent.getD "").data (req.textContent.map String.data)
    (req.delay.getD 1000) outcome rs 0
  refine ⟨htr, ?_, ?_, ?_, ?_⟩
  · rw [htr]; exact specBulkTrace_pause_count _ _ _
  · rw [htr]; exact specBulkTrace_sends _ _ _
  · rw [htr]
    intro ev hmem ms hev
    exact specBulkTrace_pause_delay _ _ _ _ hmem ms hev
  · intro hne
    rw [htr]
    have hn : rs.length ≠ 0 := fun h => hne (List.length_eq_zero.mp h)
    simpa using specBulkTrace_getLast (req.delay.getD 1000) rs.length 0 hn

/-- Witness for C5 at the fixture run: two recipients, default delay. -/
theorem c5_sequential_pacing_witness :
    demoBulkData.trace =
      specBulkTrace (demoBulkReq2.delay.getD 1000) 0
        [demoRecipA, demoRecipB].length ∧
    (demoBulkData.trace.filter BulkEvent.isPause).length =
      [demoRecipA, demoRecipB].length - 1 ∧
    demoBulkData.trace.filter BulkEvent.isSend =
      (List.range' 0 [demoRecipA, demoRecipB].length).map BulkEvent.send ∧
    (∀ ev ∈ demoBulkData.trace, ∀ ms, ev = .pause ms →
      ms = demoBulkReq2.delay.getD 1000) ∧
    ([demoRecipA, demoRecipB] ≠ ([] : List Recipient) →
      demoBulkData.trace.getLast? =
        some (.send ([demoRecipA, demoRecipB].length - 1))) :=
  c5_sequential_pacing [demoCompany] "u1" demoBulkReq2 demoOutcome
    [demoRecipA, demoRecipB] demoBulkData rfl rfl

/-! ## Claim C6 -/

/-- Number of transitions out of `pending` along a status history. -/
def transitionsOutOfPending : List String → Nat
  | a :: b :: rest =>
    (if a = "pending" ∧ b ≠ "pending" then 1 else 0) +
      transitionsOutOfPending (b :: rest)
  | _ => 0

/-- **C6, counterexample.**  The claim requires every ledger record produced
by a send attempt to undergo exactly one status transition out of
`pending`.  In the concrete bulk run below the dispatch fails and the
produced record is created directly with `status: 'failed'`: its status
history is `["failed"]`, with zero transitions out of `pending`. -/
theorem c6_counterexample :
    (sendBulk [demoCompany] "u1"
        (mkBulkReq (some "c1") (some [demoRecipA]) (some "S")
          (some "<b>B</b>") none none)
        (fun _ => .err "boom")).map
      (fun d => d.ledger.map (fun e =>
        (e.status, e.statusHistory, transitionsOutOfPending e.statusHistory)))
      = .ok [("failed", ["failed"], 0)] := rfl

/-- **C6, amended.**  Every delivery-ledger record produced by a send
attempt satisfies, once the attempt completes: `sentAt` and `messageId` are
present iff status = sent, `errorMessage` is present iff status = failed,
and the record is finalized exactly once — either created `pending` and
transitioned once to `sent` (single-send success, bulk success), or created
directly in its final status with no transition (bulk failure records, and
the file-DB server's records, which are created directly as `sent`). -/
theorem c6_ledger_invariant_amended :
    (∀ companies userId req outcome data,
      sendBulk companies userId req outcome = .ok data →
      ∀ e ∈ data.ledger,
        (e.sentAtSet = true ↔ e.status = "sent") ∧
        (e.messageId.isSome = true ↔ e.status = "sent") ∧
        (e.errorMessage.isSome = true ↔ e.status = "failed") ∧
        ((e.statusHistory = ["pending", "sent"] ∧ e.status = "sent" ∧
            transitionsOutOfPending e.statusHistory = 1) ∨
         (e.statusHistory = ["failed"] ∧ e.status = "failed" ∧
            transitionsOutOfPending e.statusHistory = 0))) ∧
    (∀ userId companyId toA subject html text outK,
      ∀ e ∈ singleSendLedger userId companyId toA subject html text outK,
        e.status = "sent" ∧ e.sentAtSet = true ∧ e.messageId.isSome = true ∧
        e.errorMessage = none ∧ e.statusHistory = ["pending", "sent"] ∧
        transitionsOutOfPending e.statusHistory = 1) ∧
    (∀ userId companyId toA cc subject html text im fb raw,
      (p6SentRecord userId companyId toA cc subject html text im fb
        raw).status = "sent" ∧
      (p6SentRecord userId companyId toA cc subject html text im fb
        raw).sentAtSet = true ∧
      (p6SentRecord userId companyId toA cc subject html text im fb
        raw).messageId.isSome = true ∧
      (p6SentRecord userId companyId toA cc subject html text im fb
        raw).errorMessage = none ∧
      (p6SentRecord userId companyId toA cc subject html text im fb
        raw).statusHistory = ["sent"] ∧
      transitionsOutOfPending (p6SentRecord userId companyId toA cc subject
        html text im fb raw).statusHistory = 0) := by
  refine ⟨?_, ?_, ?_⟩
  · intro companies userId req outcome data hok e hmem
    obtain ⟨comp, hfind, hdata⟩ := sendBulk_ok_elim _ _ _ _ _ hok
    subst hdata
    rw [runBulkLoop_ledger] at hmem
    obtain ⟨p, hp, rfl⟩ := List.mem_map.mp hmem
    cases ho : outcome p.1 with
    | ok m =>
      refine ⟨?_, ?_, ?_, Or.inl ⟨?_, ?_, ?_⟩⟩ <;>
        simp [bulkLedgerEntry, ho, bulkSentRecord, transitionsOutOfPending]
    | err ms =>
      refine ⟨?_, ?_, ?_, Or.inr ⟨?_, ?_, ?_⟩⟩ <;>
        simp [bulkLedgerEntry, ho, bulkFailedRecord, transitionsOutOfPending]
  · intro userId companyId toA subject html text outK e hmem
    cases outK with
    | ok m =>
      simp only [singleSendLedger, List.mem_singleton] at hmem
      subst hmem
      exact ⟨rfl, rfl, rfl, rfl, rfl, rfl⟩
    | err ms => simp [singleSendLedger] at hmem
  · intro userId companyId toA cc subject html text im fb raw
    exact ⟨rfl, rfl, rfl, rfl, rfl, rfl⟩

/-- First ledger entry of the fixture bulk run. -/
def c6WitnessEntry : LedgerEntry :=
  bulkSentRecord "u1" "c1" "S {name}".data "<b>B</b>".data
    (some "T".data) demoRecipA "m0"

/-- Witness for C6 (amended form) at the fixture run's first record. -/
theorem c6_ledger_invariant_amended_witness :
    (c6WitnessEntry.sentAtSet = true ↔ c6WitnessEntry.status = "sent") ∧
    (c6WitnessEntry.messageId.isSome = true ↔
      c6WitnessEntry.status = "sent") ∧
    (c6WitnessEntry.errorMessage.isSome = true ↔
      c6WitnessEntry.status = "failed") ∧
    ((c6WitnessEntry.statusHistory = ["pending", "sent"] ∧
        c6WitnessEntry.status = "sent" ∧
        transitionsOutOfPending c6WitnessEntry.statusHistory = 1) ∨
     (c6WitnessEntry.statusHistory = ["failed"] ∧
        c6WitnessEntry.status = "failed" ∧
        transitionsOutOfPending c6WitnessEntry.statusHistory = 0)) :=
  c6_ledger_invariant_amended.1 [demoCompany] "u1" demoBulkReq2 demoOutcome
    demoBulkData rfl c6WitnessEntry (by decide)

/-! ## File-backed delivery ledger (`src/server/emailServer.js`) -/

/-- One entry of the `logs` array of `email-logs.json`.  The sanitized
`emailData`/`smtpConfig` payload fields are not modelled: no claim depends
on the stored text content, only on ids, statuses and counts. -/
structure LogEntry where
  id : String
  status : String
  messageId : Option String
  error : Option String
deriving Repr, DecidableEq

/-- The whole persisted store of `email-logs.json` (the `lastUpdated`
wall-clock timestamp is not modelled). -/
structure LogsData where
  totalEmails : Nat
  successfulEmails : Nat
  failedEmails : Nat
  pendingEmails : Nat
  logs : List LogEntry
deriving Repr, DecidableEq

/-- Embedding of `logEmailAttempt` (lines 210-250): pushes a new `pending`
entry and refreshes `totalEmails` and `pendingEmails`; `newId` stands for
the generated `email_<timestamp>_<random>` id.  The sanitization of the
logged payload is not modelled (see `LogEntry`). -/
def logEmailAttempt (store : LogsData) (newId : String) : LogsData :=
  let logs := store.logs ++
    [{ id := newId, status := "pending", messageId := none, error := none }]
  { store with
    logs := logs,
    totalEmails := logs.length,
    pendingEmails := (logs.filter (fun l => l.status == "pending")).length }

/-- Mutation of the first entry with the given id, as done by
`logsData.logs.find(...)` followed by in-place assignment: `messageId` and
`error` are only written when truthy. -/
def setStatusFirst (logId status : String) (messageId error : Option String) :
    List LogEntry → List LogEntry
  | [] => []
  | e :: es =>
    if e.id == logId then
      { e with
        status := status,
        messageId := if jsTruthy messageId then messageId else e.messageId,
        error := if jsTruthy error then error else e.error } :: es
    else e :: setStatusFirst logId status messageId error es

/-- Embedding of `updateLogStatus` (lines 253-271): if no entry has the id,
nothing is written (the function returns without saving); otherwise the
entry is mutated and the three status counters are recomputed before the
save.  `totalEmails` is not recomputed. -/
def updateLogStatus (store : LogsData) (logId status : String)
    (messageId error : Option String) : LogsData :=
  if (store.logs.find? (fun l => l.id == logId)).isSome then
    let logs := setStatusFirst logId status messageId error store.logs
    { store with
      logs := logs,
      successfulEmails :=
        (logs.filter (fun l => l.status == "success")).length,
      failedEmails := (logs.filter (fun l => l.status == "failed")).length,
      pendingEmails := (logs.filter (fun l => l.status == "pending")).length }
  else store

/-- Embedding of the catch-handler error mapping of `POST /api/send-email`
(lines 383-395): the four recognized nodemailer error codes map to fixed
user-facing messages; otherwise a truthy `error.message` is passed through
verbatim, and the default text is used only when it is falsy. -/
def sendErrorResponse (code : Option String) (message : Option String) :
    String :=
  if code == some "EAUTH" then
    "Authentication failed. Please check your email and password."
  else if code == some "ECONNECTION" then
    "Connection failed. Please check your SMTP settings."
  else if code == some "EENVELOPE" then
    "Invalid recipient email address."
  else if code == some "ETIMEDOUT" then
    "Connection timeout. Please check your SMTP settings."
  else if jsTruthy message then message.getD ""
  else "Failed to send email"

/-! ## Claim C7 -/

theorem setStatusFirst_length (logId status : String)
    (messageId error : Option String) :
    ∀ l : List LogEntry,
      (setStatusFirst logId status messageId error l).length = l.length := by
  intro l
  induction l with
  | nil => rfl
  | cons e es ih =>
    by_cases he : (e.id == logId) = true
    · simp [setStatusFirst, he]
    · simp [setStatusFirst, he, ih]

/-- **C7.**  Finalizing a ledger record is idempotent in entry count and
safe on unknown ids: with an id absent from the store the persisted store
is left unchanged (and no error is raised — the embedding is total), and no
finalize call ever changes the length of the log list, so a second call
with the same id never produces a second entry. -/
theorem c7_finalize_safe (store : LogsData) (logId status : String)
    (messageId error : Option String) :
    ((store.logs.find? (fun l => l.id == logId)) = none →
      updateLogStatus store logId status messageId error = store) ∧
    (updateLogStatus store logId status messageId error).logs.length =
      store.logs.length ∧
    (updateLogStatus (updateLogStatus store logId status messageId error)
        logId status messageId error).logs.length = store.logs.length := by
  have hlen : ∀ st : LogsData,
      (updateLogStatus st logId status messageId error).logs.length =
        st.logs.length := by
    intro st
    unfold updateLogStatus
    split
    · simp [setStatusFirst_length]
    · rfl
  refine ⟨?_, hlen store, (hlen _).trans (hlen store)⟩
  intro hnone
  simp [updateLogStatus, hnone]

/-- Store fixture with a single pending entry. -/
def demoLogsData : LogsData :=
  { totalEmails := 1, successfulEmails := 0, failedEmails := 0,
    pendingEmails := 1,
    logs := [{ id := "e1", status := "pending", messageId := none,
               error := none }] }

/-- Witness for C7: finalizing an unknown id leaves the fixture store
unchanged, and finalizing twice keeps the log-list length at 1. -/
theorem c7_finalize_safe_witness :
    updateLogStatus demoLogsData "zzz" "success" (some "m") none =
      demoLogsData ∧
    (updateLogStatus demoLogsData "e1" "success" (some "m")
        none).logs.length = demoLogsData.logs.length ∧
    (updateLogStatus (updateLogStatus demoLogsData "e1" "success" (some "m")
        none) "e1" "success" (some "m") none).logs.length =
      demoLogsData.logs.length :=
  ⟨(c7_finalize_safe demoLogsData "zzz" "success" (some "m") none).1
      (by decide),
   (c7_finalize_safe demoLogsData "e1" "success" (some "m") none).2.1,
   (c7_finalize_safe demoLogsData "e1" "success" (some "m") none).2.2⟩

/-! ## Claim C9 -/

/-- **C9, counterexample.**  The claim says the response's error string is
never the raw provider exception text.  For any error whose `code` is not
one of the four recognized ones, the final `else if (error.message)` branch
returns the raw message verbatim. -/
theorem c9_counterexample :
    sendErrorResponse none (some "SMTP 550 raw provider text") =
      "SMTP 550 raw provider text" ∧
    sendErrorResponse (some "EDNS") (some "getaddrinfo ENOTFOUND smtp.x") =
      "getaddrinfo ENOTFOUND smtp.x" := ⟨rfl, rfl⟩

/-- **C9, amended.**  For the four recognized delivery-error kinds the HTTP
response carries the fixed translated user-safe message (authentication,
connection, invalid recipient, timeout); for every other error the raw
provider message text is returned verbatim when nonempty, and the generic
text only when it is absent or empty. -/
theorem c9_error_translation_amended (code message : Option String) :
    (code = some "EAUTH" → sendErrorResponse code message =
      "Authentication failed. Please check your email and password.") ∧
    (code = some "ECONNECTION" → sendErrorResponse code message =
      "Connection failed. Please check your SMTP settings.") ∧
    (code = some "EENVELOPE" → sendErrorResponse code message =
      "Invalid recipient email address.") ∧
    (code = some "ETIMEDOUT" → sendErrorResponse code message =
      "Connection timeout. Please check your SMTP settings.") ∧
    (code ≠ some "EAUTH" → code ≠ some "ECONNECTION" →
      code ≠ some "EENVELOPE" → code ≠ some "ETIMEDOUT" →
      (jsTruthy message = true →
        sendErrorResponse code message = message.getD "") ∧
      (jsTruthy message = false →
        sendErrorResponse code message = "Failed to send email")) := by
  refine ⟨?_, ?_, ?_, ?_, ?_⟩
  · intro h; simp [sendErrorResponse, h]
  · intro h; simp [sendErrorResponse, h]
  · intro h; simp [sendErrorResponse, h]
  · intro h; simp [sendErrorResponse, h]
  · intro h1 h2 h3 h4
    constructor <;> intro ht <;>
      simp [sendErrorResponse, beq_iff_eq, h1, h2, h3, h4, ht]

/-- Witness for C9 (amended form): an authentication failure is translated,
and an unrecognized error with a nonempty message passes it through. -/
theorem c9_error_translation_amended_witness :
    sendErrorResponse (some "EAUTH") (some "535 bad credentials") =
      "Authentication failed. Please check your email and password." ∧
    sendErrorResponse (some "ESOCKET") (some "socket hang up") =
      (some "socket hang up").getD "" :=
  ⟨(c9_error_translation_amended (some "EAUTH")
      (some "535 bad credentials")).1 rfl,
   ((c9_error_translation_amended (some "ESOCKET")
      (some "socket hang up")).2.2.2.2 (by decide) (by decide) (by decide)
      (by decide)).1 rfl⟩

/-! ## Claim C10 -/

/-- Consistency of the store's summary counters with its log list. -/
def countersConsistent (d : LogsData) : Prop :=
  d.totalEmails = d.logs.length ∧
  d.pendingEmails = (d.logs.filter (fun l => l.status == "pending")).length ∧
  d.successfulEmails =
    (d.logs.filter (fun l => l.status == "success")).length ∧
  d.failedEmails = (d.logs.filter (fun l => l.status == "failed")).length

/-- **C10.**  Starting from a store whose four summary counters agree with
its log list, every `logEmailAttempt` and every `updateLogStatus` call
preserves all four equalities in the persisted store. -/
theorem c10_counters_invariant (store : LogsData)
    (h : countersConsistent store) :
    (∀ newId, countersConsistent (logEmailAttempt store newId)) ∧
    (∀ logId status messageId error,
      countersConsistent
        (updateLogStatus store logId status messageId error)) := by
  constructor
  · intro newId
    refine ⟨rfl, rfl, ?_, ?_⟩
    · simp only [logEmailAttempt]
      rw [List.filter_append, h.2.2.1]
      simp
    · simp only [logEmailAttempt]
      rw [List.filter_append, h.2.2.2]
      simp
  · intro logId status messageId error
    unfold updateLogStatus
    split
    · exact ⟨h.1.trans (setStatusFirst_length _ _ _ _ _).symm, rfl, rfl, rfl⟩
    · exact h

/-- Witness for C10: the fixture store is consistent, and stays so after a
new attempt is logged and after a finalization. -/
theorem c10_counters_invariant_witness :
    countersConsistent (logEmailAttempt demoLogsData "e2") ∧
    countersConsistent
      (updateLogStatus demoLogsData "e1" "success" (some "m") none) :=
  ⟨(c10_counters_invariant demoLogsData
      ⟨rfl, rfl, rfl, rfl⟩).1 "e2",
   (c10_counters_invariant demoLogsData
      ⟨rfl, rfl, rfl, rfl⟩).2 "e1" "success" (some "m") none⟩

/-! ## Email history query (`GET /api/emails` in `routes/emails.js`) -/

/-- Email document fields the history route touches. -/
structure EmailDoc where
  user : String
  company : String
  status : String
  createdAt : Nat
deriving Repr, DecidableEq

/-- The Mongo filter the route builds: owner scoping always; company and
status only when the query parameter is truthy. -/
def emailFilter (userId : String) (companyId status : Option String)
    (e : EmailDoc) : Bool :=
  e.user == userId &&
  (if jsTruthy companyId then e.company == companyId.getD "" else true) &&
  (if jsTruthy status then e.status == status.getD "" else true)

/-- The ordering of `sort({createdAt: -1})`: newest first. -/
def newestFirst (a b : EmailDoc) : Prop := b.createdAt ≤ a.createdAt

instance : DecidableRel newestFirst := fun a b =>
  Nat.decLe b.createdAt a.createdAt

instance : IsTotal EmailDoc newestFirst :=
  ⟨fun a b => Nat.le_total b.createdAt a.createdAt⟩

instance : IsTrans EmailDoc newestFirst :=
  ⟨fun _ _ _ hab hbc => Nat.le_trans hbc hab⟩

/-- A sort of the documents in descending creation order (the model of the
Mongo sort; ties are broken arbitrarily, as Mongo leaves them unspecified). -/
def sortNewestFirst (l : List EmailDoc) : List EmailDoc :=
  List.insertionSort newestFirst l

/-- Embedding of `GET /api/emails` (lines 19-49 of `routes/emails.js`):
filter by owner (plus optional company/status), sort newest-first, then
offset pagination with `skip = (page - 1) * limit`; also returns
`countDocuments` of the filter. -/
def getEmails (emails : List EmailDoc) (userId : String)
    (companyId status : Option String) (page limit : Nat) :
    List EmailDoc × Nat :=
  let filtered := emails.filter (emailFilter userId companyId status)
  let sorted := sortNewestFirst filtered
  ((sorted.drop ((page - 1) * limit)).take limit, filtered.length)

/-! ## Claim C8 -/

/-- **C8.**  The email-history query returns only records owned by the
caller, ordered newest-first by creation time, with offset pagination
`skip = (page-1)*pageSize`; in particular, for a caller with exactly 25
matching ledger entries, page 2 with limit 20 returns exactly 5 records,
and page 1 followed by page 2 is exactly the whole newest-first sequence
(page 2 continues from page 1's last record). -/
theorem c8_history_pagination (emails : List EmailDoc) (userId : String)
    (companyId status : Option String) :
    (∀ page limit,
      ∀ e ∈ (getEmails emails userId companyId status page limit).1,
        e.user = userId) ∧
    (∀ page limit,
      List.Pairwise (fun a b => b.createdAt ≤ a.createdAt)
        (getEmails emails userId companyId status page limit).1) ∧
    ((emails.filter (emailFilter userId companyId status)).length = 25 →
      (getEmails emails userId companyId status 2 20).1.length = 5 ∧
      (getEmails emails userId companyId status 1 20).1 ++
          (getEmails emails userId companyId status 2 20).1 =
        sortNewestFirst (emails.filter (emailFilter userId companyId status)))
    := by
  have hsub : ∀ page limit,
      ((sortNewestFirst (emails.filter (emailFilter userId companyId
        status))).drop ((page - 1) * limit)).take limit |>.Sublist
        (sortNewestFirst (emails.filter (emailFilter userId companyId
          status))) := fun page limit =>
    (List.take_sublist _ _).trans (List.drop_sublist _ _)
  refine ⟨?_, ?_, ?_⟩
  · intro page limit e hmem
    have hmem2 : e ∈ sortNewestFirst
        (emails.filter (emailFilter userId companyId status)) :=
      (hsub page limit).mem hmem
    have hmem3 : e ∈ emails.filter (emailFilter userId companyId status) :=
      (List.perm_insertionSort newestFirst _).mem_iff.mp hmem2
    have hf := List.of_mem_filter hmem3
    simp only [emailFilter, Bool.and_eq_true, beq_iff_eq] at hf
    exact hf.1.1
  · intro page limit
    have hsorted : List.Pairwise newestFirst
        (sortNewestFirst (emails.filter (emailFilter userId companyId
          status))) :=
      List.sorted_insertionSort newestFirst _
    exact (hsorted.sublist (hsub page limit) : _)
  · intro h25
    have hslen : (sortNewestFirst (emails.filter (emailFilter userId
        companyId status))).length = 25 :=
      ((List.perm_insertionSort newestFirst _).length_eq).trans h25
    constructor
    · show (((sortNewestFirst _).drop ((2 - 1) * 20)).take 20).length = 5
      rw [List.length_take, List.length_drop, hslen]
      norm_num
    · show ((sortNewestFirst _).drop ((1 - 1) * 20)).take 20 ++
        ((sortNewestFirst _).drop ((2 - 1) * 20)).take 20 = sortNewestFirst _
      have h20 : ((sortNewestFirst (emails.filter (emailFilter userId
          companyId status))).drop ((2 - 1) * 20)).length ≤ 20 := by
        rw [List.length_drop, hslen]
        norm_num
      rw [List.take_of_length_le h20]
      show (sortNewestFirst _ |>.drop 0).take 20 ++ _ = _
      rw [List.drop_zero]
      exact List.take_append_drop 20 _

/-- Fixture history: 25 documents all owned by `u1`, `createdAt = 0..24`. -/
def demoEmails : List EmailDoc :=
  (List.range 25).map (fun n =>
    { user := "u1", company := "c1", status := "sent", createdAt := n })

/-- Witness for C8: the fixture history has 25 matching records; page 2
with limit 20 returns exactly 5, continuing the newest-first sequence. -/
theorem c8_history_pagination_witness :
    (getEmails demoEmails "u1" none none 2 20).1.length = 5 ∧
    (getEmails demoEmails "u1" none none 1 20).1 ++
        (getEmails demoEmails "u1" none none 2 20).1 =
      sortNewestFirst (demoEmails.filter (emailFilter "u1" none none)) :=
  (c8_history_pagination demoEmails "u1" none none).2.2 (by decide)

end ColdEmail
